import Mathlib

/-!
Shallow embedding of the redis-rust repository (RESP frame codec, in-memory
keyspace, RDB snapshot codec and command dispatcher) and proofs about the
claims C1..C10.

Conventions of the embedding:
* Rust byte buffers (`Vec<u8>`, `BytesMut`) are `List Nat`, each element a
  byte value `< 256` on every path the code can produce.
* Rust `String` values are represented by their UTF-8 byte lists.
* Monotonic instants (`tokio::time::Instant`) and wall-clock unix timestamps
  are `Nat` milliseconds, passed explicitly where the source calls
  `Instant::now()` / `SystemTime::now()`.
* Fallible Rust code returns `Except`; a Rust panic (e.g. `.unwrap()` on an
  `Err`) is a distinct abnormal outcome of the model.
* `f64` is not representable; the `Double` frame payload is modelled by its
  decimal text bytes (no claim depends on float arithmetic).
-/

/-- Bytes of a Lean string literal (all literals used are ASCII). -/
def strBytes (s : String) : List Nat :=
  s.data.map Char.toNat

/-- Decimal digits accumulator for natural numbers (fuel = the number itself,
which bounds the digit count). -/
def natDecimalGo : Nat → Nat → List Nat
  | 0, _ => []
  | fuel + 1, n => if n = 0 then [] else natDecimalGo fuel (n / 10) ++ [48 + n % 10]

/-- ASCII decimal representation of a natural number, as Rust `Display` prints it. -/
def natDecimal (n : Nat) : List Nat :=
  if n = 0 then [48] else natDecimalGo n n

/-- ASCII decimal representation of an integer (minus sign byte 45 when negative). -/
def intDecimal (i : Int) : List Nat :=
  if i < 0 then 45 :: natDecimal (-i).toNat else natDecimal i.toNat

/-- ASCII lowercase of one byte, as `eq_ignore_ascii_case` / `to_lowercase`
treat ASCII (the source only compares ASCII command/option names). -/
def asciiLowerByte (b : Nat) : Nat :=
  if 65 ≤ b ∧ b ≤ 90 then b + 32 else b

/-- Byte list lowered ASCII-wise. -/
def asciiLower (l : List Nat) : List Nat :=
  l.map asciiLowerByte

/-- Rust `eq_ignore_ascii_case` on byte slices. -/
def eqIgnoreAsciiCase (a b : List Nat) : Bool :=
  asciiLower a = asciiLower b

/-- Whether a byte is a UTF-8 continuation byte (0x80..0xBF). -/
def isCont (b : Nat) : Bool :=
  128 ≤ b ∧ b ≤ 191

/-- Validity of a byte list as UTF-8, the check `String::from_utf8` performs. -/
def validUtf8 : List Nat → Bool
  | [] => true
  | b :: rest =>
    if b ≤ 127 then validUtf8 rest
    else if 194 ≤ b ∧ b ≤ 223 then
      match rest with
      | c1 :: r => isCont c1 && validUtf8 r
      | [] => false
    else if b = 224 then
      match rest with
      | c1 :: c2 :: r => (160 ≤ c1 && c1 ≤ 191) && isCont c2 && validUtf8 r
      | _ => false
    else if (225 ≤ b ∧ b ≤ 236) ∨ b = 238 ∨ b = 239 then
      match rest with
      | c1 :: c2 :: r => isCont c1 && isCont c2 && validUtf8 r
      | _ => false
    else if b = 237 then
      match rest with
      | c1 :: c2 :: r => (128 ≤ c1 && c1 ≤ 159) && isCont c2 && validUtf8 r
      | _ => false
    else if b = 240 then
      match rest with
      | c1 :: c2 :: c3 :: r => (144 ≤ c1 && c1 ≤ 191) && isCont c2 && isCont c3 && validUtf8 r
      | _ => false
    else if 241 ≤ b ∧ b ≤ 243 then
      match rest with
      | c1 :: c2 :: c3 :: r => isCont c1 && isCont c2 && isCont c3 && validUtf8 r
      | _ => false
    else if b = 244 then
      match rest with
      | c1 :: c2 :: c3 :: r => (128 ≤ c1 && c1 ≤ 143) && isCont c2 && isCont c3 && validUtf8 r
      | _ => false
    else false

/-- The UTF-8 bytes of U+FFFD, the replacement character. -/
def fffd : List Nat := [239, 191, 189]

/-- Validity range check for the second byte of a 3-byte sequence headed by `b`. -/
def valid3Second (b c1 : Nat) : Bool :=
  if b = 224 then 160 ≤ c1 && c1 ≤ 191
  else if b = 237 then 128 ≤ c1 && c1 ≤ 159
  else isCont c1

/-- Validity range check for the second byte of a 4-byte sequence headed by `b`. -/
def valid4Second (b c1 : Nat) : Bool :=
  if b = 240 then 144 ≤ c1 && c1 ≤ 191
  else if b = 244 then 128 ≤ c1 && c1 ≤ 143
  else isCont c1

/-- Rust `String::from_utf8_lossy` as a byte-list transformer: valid sequences
pass through, each maximal invalid subpart becomes U+FFFD, an incomplete tail
becomes a single U+FFFD. -/
def utf8Lossy : List Nat → List Nat
  | [] => []
  | b :: rest =>
    if b ≤ 127 then b :: utf8Lossy rest
    else if 194 ≤ b ∧ b ≤ 223 then
      match rest with
      | c1 :: r => if isCont c1 then b :: c1 :: utf8Lossy r else fffd ++ utf8Lossy (c1 :: r)
      | [] => fffd
    else if 224 ≤ b ∧ b ≤ 239 then
      match rest with
      | c1 :: c2 :: r =>
        if valid3Second b c1 then
          if isCont c2 then b :: c1 :: c2 :: utf8Lossy r
          else fffd ++ utf8Lossy (c2 :: r)
        else fffd ++ utf8Lossy (c1 :: c2 :: r)
      | [c1] => if valid3Second b c1 then fffd else fffd ++ utf8Lossy [c1]
      | [] => fffd
    else if 240 ≤ b ∧ b ≤ 244 then
      match rest with
      | c1 :: c2 :: c3 :: r =>
        if valid4Second b c1 then
          if isCont c2 then
            if isCont c3 then b :: c1 :: c2 :: c3 :: utf8Lossy r
            else fffd ++ utf8Lossy (c3 :: r)
          else fffd ++ utf8Lossy (c2 :: c3 :: r)
        else fffd ++ utf8Lossy (c1 :: c2 :: c3 :: r)
      | [c1, c2] =>
        if valid4Second b c1 then
          if isCont c2 then fffd else fffd ++ utf8Lossy [c2]
        else fffd ++ utf8Lossy [c1, c2]
      | [c1] => if valid4Second b c1 then fffd else fffd ++ utf8Lossy [c1]
      | [] => fffd
    else fffd ++ utf8Lossy rest

/-! ### Rust integer parsing (`str::parse`) -/

/-- Error message of Rust `ParseIntError` for an empty input. -/
def msgEmptyInt : List Nat := strBytes "cannot parse integer from empty string"

/-- Error message of Rust `ParseIntError` for a non-digit character. -/
def msgInvalidDigit : List Nat := strBytes "invalid digit found in string"

/-- Error message of Rust `ParseIntError` on positive overflow. -/
def msgTooLarge : List Nat := strBytes "number too large to fit in target type"

/-- Error message of Rust `ParseIntError` on negative overflow. -/
def msgTooSmall : List Nat := strBytes "number too small to fit in target type"

/-- Digit-by-digit accumulation with per-step overflow check against `hi`,
mirroring Rust `from_str_radix` (digit validity is checked before overflow). -/
def parseDigitsLoop (hi : Nat) (ovMsg : List Nat) : List Nat → Nat → Except (List Nat) Nat
  | [], acc => .ok acc
  | c :: rest, acc =>
    if 48 ≤ c ∧ c ≤ 57 then
      let acc' := acc * 10 + (c - 48)
      if acc' > hi then .error ovMsg else parseDigitsLoop hi ovMsg rest acc'
    else .error msgInvalidDigit

/-- Rust `str::parse::<i64>` (also `isize` on a 64-bit target) over the bytes
of the string. -/
def parseI64 (s : List Nat) : Except (List Nat) Int :=
  match s with
  | [] => .error msgEmptyInt
  | c :: rest =>
    if c = 43 then
      match rest with
      | [] => .error msgInvalidDigit
      | _ => (parseDigitsLoop (2 ^ 63 - 1) msgTooLarge rest 0).map Int.ofNat
    else if c = 45 then
      match rest with
      | [] => .error msgInvalidDigit
      | _ => (parseDigitsLoop (2 ^ 63) msgTooSmall rest 0).map (fun n => -(Int.ofNat n))
    else (parseDigitsLoop (2 ^ 63 - 1) msgTooLarge s 0).map Int.ofNat

/-- Rust `str::parse::<u64>` (also `usize` on a 64-bit target) over the bytes
of the string. -/
def parseU64 (s : List Nat) : Except (List Nat) Nat :=
  match s with
  | [] => .error msgEmptyInt
  | c :: rest =>
    if c = 43 then
      match rest with
      | [] => .error msgInvalidDigit
      | _ => parseDigitsLoop (2 ^ 64 - 1) msgTooLarge rest 0
    else parseDigitsLoop (2 ^ 64 - 1) msgTooLarge s 0

/-- Loose syntactic check for Rust `str::parse::<f64>` success: optional sign,
then either digits with optional fraction and exponent, or `inf`, `infinity`,
`nan` case-insensitively. Only the success condition is modelled; the f64
value itself is kept as text. -/
def isDigitByte (b : Nat) : Bool := 48 ≤ b ∧ b ≤ 57

/-- Exponent part check: optional sign then at least one digit. -/
def f64ExpOk (l : List Nat) : Bool :=
  match l with
  | [] => false
  | c :: rest =>
    if c = 43 ∨ c = 45 then rest ≠ [] && rest.all isDigitByte
    else l ≠ [] && l.all isDigitByte

/-- Mantissa-with-optional-exponent check for the float grammar. -/
def f64BodyOk (l : List Nat) : Bool :=
  let low := asciiLower l
  if low = strBytes "inf" ∨ low = strBytes "infinity" ∨ low = strBytes "nan" then true
  else
    match l.findIdx? (fun b => b = 101 ∨ b = 69) with
    | some i =>
      let mant := l.take i
      let ex := l.drop (i + 1)
      (match mant.findIdx? (fun b => b = 46) with
       | some j =>
         let ip := mant.take j
         let fp := mant.drop (j + 1)
         (ip ≠ [] ∨ fp ≠ []) && ip.all isDigitByte && fp.all isDigitByte
       | none => mant ≠ [] && mant.all isDigitByte) && f64ExpOk ex
    | none =>
      match l.findIdx? (fun b => b = 46) with
      | some j =>
        let ip := l.take j
        let fp := l.drop (j + 1)
        (ip ≠ [] ∨ fp ≠ []) && ip.all isDigitByte && fp.all isDigitByte
      | none => l ≠ [] && l.all isDigitByte

/-- Full float-literal syntax check including the optional leading sign. -/
def f64SyntaxOk (l : List Nat) : Bool :=
  match l with
  | c :: rest => if c = 43 ∨ c = 45 then f64BodyOk rest else f64BodyOk l
  | [] => false

/-! ### RESP frames (src/resp/types.rs) -/

/-- The RESP frame type of `src/resp/types.rs`. Strings carry their UTF-8
bytes; `double` carries the decimal text of the f64. -/
inductive Frame where
  | simpleString (s : List Nat)
  | error (s : List Nat)
  | integer (i : Int)
  | bulkString (b : Option (List Nat))
  | array (a : Option (List Frame))
  | null
  | boolean (b : Bool)
  | double (s : List Nat)
  | bigNumber (s : List Nat)
  | bulkError (s : List Nat)
  | verbatimString (subtype : List Nat) (data : List Nat)
  | map (pairs : Option (List (Frame × Frame)))
  | set (items : Option (List Frame))
  | attribute (pairs : Option (List (Frame × Frame)))
  | push (items : Option (List Frame))
deriving Repr

/-- CR LF. -/
def crlf : List Nat := [13, 10]

mutual
/-- `Frame::encode` of src/resp/types.rs. -/
def Frame.encode : Frame → List Nat
  | .simpleString s => 43 :: s ++ crlf
  | .error s => 45 :: s ++ crlf
  | .integer i => 58 :: intDecimal i ++ crlf
  | .bulkString (some bs) => 36 :: natDecimal bs.length ++ crlf ++ bs ++ crlf
  | .bulkString none => strBytes "$-1\r\n"
  | .array (some arr) => 42 :: natDecimal arr.length ++ crlf ++ encodeList arr
  | .array none => strBytes "*-1\r\n"
  | .null => strBytes "_\r\n"
  | .boolean b => 35 :: (if b then [116] else [102]) ++ crlf
  | .double s => 44 :: s ++ crlf
  | .bigNumber s => 40 :: s ++ crlf
  | .bulkError msg => 33 :: natDecimal msg.length ++ crlf ++ msg ++ crlf
  | .verbatimString subtype data =>
      61 :: subtype ++ [32] ++ natDecimal data.length ++ crlf ++ data ++ crlf
  | .map none => strBytes "%-1\r\n"
  | .map (some pairs) => 37 :: natDecimal pairs.length ++ crlf ++ encodePairs pairs
  | .set none => strBytes "~-1\r\n"
  | .set (some items) => 126 :: natDecimal items.length ++ crlf ++ encodeList items
  | .attribute none => strBytes "|-1\r\n"
  | .attribute (some pairs) => 124 :: natDecimal pairs.length ++ crlf ++ encodePairs pairs
  | .push none => strBytes ">-1\r\n"
  | .push (some items) => 62 :: natDecimal items.length ++ crlf ++ encodeList items

/-- Concatenated encodings of a frame list. -/
def encodeList : List Frame → List Nat
  | [] => []
  | f :: rest => f.encode ++ encodeList rest

/-- Concatenated encodings of key/value frame pairs. -/
def encodePairs : List (Frame × Frame) → List Nat
  | [] => []
  | (k, v) :: rest => k.encode ++ v.encode ++ encodePairs rest
end

/-! ### RESP parser (src/resp/parser.rs)

The source parser mutates a `BytesMut` buffer in place; the model threads the
buffer explicitly. `buf.split()` moves the whole content out, `buf.unsplit(x)`
appends `x`, `buf.clone()` copies — all are plain list operations here, so the
source's aliasing behaviour (including the cloned-buffer aggregate loops) is
reproduced exactly. Nested `parse` recursion is bounded by a fuel argument;
a distinct `fuelOut` outcome marks exhaustion so it can never be mistaken for
a result of the code. -/

/-- Outcome of `FrameParser::parse`: the `Result<Option<Frame>, String>`
together with the buffer left behind, or an abnormal end (Rust panic /
model fuel exhaustion). -/
inductive POut where
  | res (r : Except (List Nat) (Option Frame)) (buf : List Nat)
  | panicked
  | fuelOut
deriving Repr

/-- Outcome of one `parse_xxx` helper: a frame plus remaining buffer, an error
plus remaining buffer, or abnormal end. -/
inductive SubOut where
  | ok (f : Frame) (buf : List Nat)
  | err (e : List Nat) (buf : List Nat)
  | panicked
  | fuelOut
deriving Repr

/-- Outcome of an aggregate item loop. -/
inductive ItemsOut where
  | ok (items : List Frame) (buf : List Nat)
  | err (e : List Nat) (buf : List Nat)
  | panicked
  | fuelOut
deriving Repr

/-- Outcome of the map pair loop. -/
inductive PairsOut where
  | ok (pairs : List (Frame × Frame)) (buf : List Nat)
  | err (e : List Nat) (buf : List Nat)
  | panicked
  | fuelOut
deriving Repr

/-- Outcome of `parse_line`. -/
inductive LineOut where
  | got (line : List Nat) (rest : List Nat)
  | nope
  | panicked
deriving Repr

/-- Index of the first CRLF pair, scanning as the source loop
`for i in 0..buf.len()-1` does. -/
def findCrlf : List Nat → Option Nat
  | 13 :: 10 :: _ => some 0
  | _ :: rest => (findCrlf rest).map (· + 1)
  | [] => none

/-- The error text `"Incomplete"`. -/
def msgIncomplete : List Nat := strBytes "Incomplete"

/-- `parse_line`: split off the first CRLF-terminated line and consume it.
`String::from_utf8(..).unwrap()` panics when the line is not valid UTF-8. -/
def parseLineB (buf : List Nat) : LineOut :=
  match findCrlf buf with
  | none => .nope
  | some i =>
    let line := buf.take i
    let rest := buf.drop (i + 2)
    if validUtf8 line then .got line rest else .panicked

/-- `parse_simple`. -/
def parseSimpleB (buf : List Nat) : SubOut :=
  match parseLineB buf with
  | .got line rest => .ok (.simpleString (line.drop 1)) rest
  | .nope => .err msgIncomplete buf
  | .panicked => .panicked

/-- `parse_error`. -/
def parseErrorB (buf : List Nat) : SubOut :=
  match parseLineB buf with
  | .got line rest => .ok (.error (line.drop 1)) rest
  | .nope => .err msgIncomplete buf
  | .panicked => .panicked

/-- `parse_integer`. -/
def parseIntegerB (buf : List Nat) : SubOut :=
  match parseLineB buf with
  | .got line rest =>
    match parseI64 (line.drop 1) with
    | .ok n => .ok (.integer n) rest
    | .error e => .err e rest
  | .nope => .err msgIncomplete buf
  | .panicked => .panicked

/-- `parse_bulk`: the length line is consumed before the completeness check,
so an incomplete body leaves a shortened buffer behind. -/
def parseBulkB (buf : List Nat) : SubOut :=
  match parseLineB buf with
  | .got line rest =>
    match parseI64 (line.drop 1) with
    | .error e => .err e rest
    | .ok len =>
      if len < 0 then .ok (.bulkString none) rest
      else if rest.length ≥ len.toNat + 2 then
        .ok (.bulkString (some (rest.take len.toNat))) (rest.drop (len.toNat + 2))
      else .err msgIncomplete rest
  | .nope => .err msgIncomplete buf
  | .panicked => .panicked

/-- `parse_null`: any complete line yields `Null`. -/
def parseNullB (buf : List Nat) : SubOut :=
  match parseLineB buf with
  | .got _ rest => .ok .null rest
  | .nope => .err msgIncomplete buf
  | .panicked => .panicked

/-- `parse_boolean`. -/
def parseBooleanB (buf : List Nat) : SubOut :=
  match parseLineB buf with
  | .got line rest =>
    if line.drop 1 = [116] then .ok (.boolean true) rest
    else if line.drop 1 = [102] then .ok (.boolean false) rest
    else .err (strBytes "Invalid boolean") rest
  | .nope => .err msgIncomplete buf
  | .panicked => .panicked

/-- `parse_double` (f64 value kept as its text; only parse success modelled). -/
def parseDoubleB (buf : List Nat) : SubOut :=
  match parseLineB buf with
  | .got line rest =>
    if f64SyntaxOk (line.drop 1) then .ok (.double (line.drop 1)) rest
    else .err (strBytes "invalid float literal") rest
  | .nope => .err msgIncomplete buf
  | .panicked => .panicked

/-- `parse_bignumber`: no validation, the line body is taken as-is. -/
def parseBignumberB (buf : List Nat) : SubOut :=
  match parseLineB buf with
  | .got line rest => .ok (.bigNumber (line.drop 1)) rest
  | .nope => .err msgIncomplete buf
  | .panicked => .panicked

/-- `parse_bulk_error`. -/
def parseBulkErrorB (buf : List Nat) : SubOut :=
  match parseLineB buf with
  | .got line rest =>
    match parseU64 (line.drop 1) with
    | .error e => .err e rest
    | .ok len =>
      if rest.length < len + 2 then .err msgIncomplete rest
      else .ok (.bulkError (utf8Lossy (rest.take len))) (rest.drop (len + 2))
  | .nope => .err msgIncomplete buf
  | .panicked => .panicked

/-- `parse_verbatim_string`: `splitn(2, ' ')` then `.next().unwrap()` twice —
a header without a space panics on the second `unwrap`. -/
def parseVerbatimB (buf : List Nat) : SubOut :=
  match parseLineB buf with
  | .got line rest =>
    let body := line.drop 1
    match body.findIdx? (fun b => b = 32) with
    | none => .panicked
    | some i =>
      let subtype := body.take i
      let lenPart := body.drop (i + 1)
      match parseU64 lenPart with
      | .error e => .err e rest
      | .ok len =>
        if rest.length < len + 2 then .err msgIncomplete rest
        else .ok (.verbatimString subtype (rest.take len)) (rest.drop (len + 2))
  | .nope => .err msgIncomplete buf
  | .panicked => .panicked

/-- Loop of `parse_array`: the buffer is moved (`split`) into a sub-parser,
so a nested error or a nested end-of-input loses the outer buffer. -/
def arrLoop (p : List Nat → POut) : Nat → List Nat → List Frame → ItemsOut
  | 0, buf, acc => .ok acc buf
  | n + 1, buf, acc =>
    match p buf with
    | .res (.ok (some f)) rest => arrLoop p n rest (acc ++ [f])
    | .res (.ok none) _ => .err (strBytes "Incomplete array item") []
    | .res (.error e) _ => .err e []
    | .panicked => .panicked
    | .fuelOut => .fuelOut

/-- Loop of `parse_aggregate`: each item is parsed on a clone of the buffer,
then `buf.unsplit(buf.clone())` appends a copy of the buffer to itself. -/
def aggLoop (p : List Nat → POut) : Nat → List Nat → List Frame → ItemsOut
  | 0, buf, acc => .ok acc buf
  | n + 1, buf, acc =>
    match p buf with
    | .res (.ok (some f)) _ => aggLoop p n (buf ++ buf) (acc ++ [f])
    | .res (.ok none) _ => .err (strBytes "Incomplete aggregate item") buf
    | .res (.error e) _ => .err e buf
    | .panicked => .panicked
    | .fuelOut => .fuelOut

/-- Loop of `parse_map`: key and value are each parsed on clones, with the
buffer appended to itself after each successful parse. -/
def mapLoop (p : List Nat → POut) : Nat → List Nat → List (Frame × Frame) → PairsOut
  | 0, buf, acc => .ok acc buf
  | n + 1, buf, acc =>
    match p buf with
    | .res (.ok (some k)) _ =>
      let buf1 := buf ++ buf
      match p buf1 with
      | .res (.ok (some v)) _ => mapLoop p n (buf1 ++ buf1) (acc ++ [(k, v)])
      | .res (.ok none) _ => .err (strBytes "Incomplete map value") buf1
      | .res (.error e) _ => .err e buf1
      | .panicked => .panicked
      | .fuelOut => .fuelOut
    | .res (.ok none) _ => .err (strBytes "Incomplete map key") buf
    | .res (.error e) _ => .err e buf
    | .panicked => .panicked
    | .fuelOut => .fuelOut

/-- `parse_array`. -/
def parseArrayB (p : List Nat → POut) (buf : List Nat) : SubOut :=
  match parseLineB buf with
  | .got line rest =>
    match parseI64 (line.drop 1) with
    | .error e => .err e rest
    | .ok count =>
      if count < 0 then .ok (.array none) rest
      else
        match arrLoop p count.toNat rest [] with
        | .ok items buf2 => .ok (.array (some items)) buf2
        | .err e buf2 => .err e buf2
        | .panicked => .panicked
        | .fuelOut => .fuelOut
  | .nope => .err msgIncomplete buf
  | .panicked => .panicked

/-- `parse_aggregate` specialised by the caller's nil frame and constructor
(`parse_set` / `parse_push`). -/
def parseAggB (p : List Nat → POut) (nilFrame : Frame) (mk : List Frame → Frame)
    (buf : List Nat) : SubOut :=
  match parseLineB buf with
  | .got line rest =>
    match parseI64 (line.drop 1) with
    | .error e => .err e rest
    | .ok count =>
      if count < 0 then .ok nilFrame rest
      else
        match aggLoop p count.toNat rest [] with
        | .ok items buf2 => .ok (mk items) buf2
        | .err e buf2 => .err e buf2
        | .panicked => .panicked
        | .fuelOut => .fuelOut
  | .nope => .err msgIncomplete buf
  | .panicked => .panicked

/-- `parse_map`, which yields `Map` when the consumed line started with `%`
and `Attribute` otherwise. -/
def parseMapB (p : List Nat → POut) (buf : List Nat) : SubOut :=
  match parseLineB buf with
  | .got line rest =>
    match parseI64 (line.drop 1) with
    | .error e => .err e rest
    | .ok count =>
      if count < 0 then
        if line.take 1 = [37] then .ok (.map none) rest else .ok (.attribute none) rest
      else
        match mapLoop p count.toNat rest [] with
        | .ok pairs buf2 =>
          if line.take 1 = [37] then .ok (.map (some pairs)) buf2
          else .ok (.attribute (some pairs)) buf2
        | .err e buf2 => .err e buf2
        | .panicked => .panicked
        | .fuelOut => .fuelOut
  | .nope => .err msgIncomplete buf
  | .panicked => .panicked

/-- `parse_attribute`: delegates to `parse_map` and re-checks the constructor. -/
def parseAttributeB (p : List Nat → POut) (buf : List Nat) : SubOut :=
  match parseMapB p buf with
  | .ok (.attribute a) buf2 => .ok (.attribute a) buf2
  | .ok _ buf2 => .err (strBytes "Expected attribute frame") buf2
  | .err e buf2 => .err e buf2
  | .panicked => .panicked
  | .fuelOut => .fuelOut

/-- Wrap a helper outcome into the `parse` result shape. -/
def subToPOut : SubOut → POut
  | .ok f buf => .res (.ok (some f)) buf
  | .err e buf => .res (.error e) buf
  | .panicked => .panicked
  | .fuelOut => .fuelOut

/-- `FrameParser::parse` with a recursion-depth fuel for nested frames. -/
def parseFuel : Nat → List Nat → POut
  | 0, _ => .fuelOut
  | fuel + 1, buf =>
    match buf with
    | [] => .res (.ok none) []
    | b0 :: _ =>
      let p := parseFuel fuel
      if b0 = 43 then subToPOut (parseSimpleB buf)
      else if b0 = 45 then subToPOut (parseErrorB buf)
      else if b0 = 58 then subToPOut (parseIntegerB buf)
      else if b0 = 36 then subToPOut (parseBulkB buf)
      else if b0 = 42 then subToPOut (parseArrayB p buf)
      else if b0 = 95 then subToPOut (parseNullB buf)
      else if b0 = 35 then subToPOut (parseBooleanB buf)
      else if b0 = 44 then subToPOut (parseDoubleB buf)
      else if b0 = 40 then subToPOut (parseBignumberB buf)
      else if b0 = 33 then subToPOut (parseBulkErrorB buf)
      else if b0 = 61 then subToPOut (parseVerbatimB buf)
      else if b0 = 37 then subToPOut (parseMapB p buf)
      else if b0 = 126 then subToPOut (parseAggB p (.set none) (fun l => .set (some l)) buf)
      else if b0 = 124 then subToPOut (parseAttributeB p buf)
      else if b0 = 62 then subToPOut (parseAggB p (.push none) (fun l => .push (some l)) buf)
      else .res (.error (strBytes "Unexpected byte: " ++ natDecimal b0)) buf

/-- `FrameParser::parse` on a buffer; the fuel bounds only the nesting depth
of frames, far above anything the concrete inputs in this file reach. -/
def frameParse (buf : List Nat) : POut :=
  parseFuel (buf.length + 1) buf

/-! ### Stored values and the keyspace (src/model/redis_value.rs, src/db.rs) -/

/-- `RedisValue` of src/model/redis_value.rs. `Float` keeps its decimal text
(f64 not representable); `Hash` is its entry list in iteration order. -/
inductive RedisValue where
  | string (s : List Nat)
  | integer (i : Int)
  | float (s : List Nat)
  | boolean (b : Bool)
  | null
  | list (l : List (List Nat))
  | set (s : List (List Nat))
  | sortedSet (ss : List (List Nat × List Nat))
  | hash (h : List (List Nat × List Nat))
  | zipmap (z : List Nat)
  | ziplist (z : List Nat)
  | intset (i : List Nat)
  | quicklist (q : List Nat)
deriving Repr, DecidableEq

/-- Association-list lookup, modelling `HashMap::get`. -/
def alLookup (k : List Nat) : List (List Nat × α) → Option α
  | [] => none
  | (k', v) :: rest => if k' = k then some v else alLookup k rest

/-- Association-list insert-or-replace, modelling `HashMap::insert`. -/
def alInsert (k : List Nat) (v : α) : List (List Nat × α) → List (List Nat × α)
  | [] => [(k, v)]
  | (k', v') :: rest => if k' = k then (k, v) :: rest else (k', v') :: alInsert k v rest

/-- Association-list removal, modelling `HashMap::remove`. -/
def alRemove (k : List Nat) : List (List Nat × α) → List (List Nat × α)
  | [] => []
  | (k', v') :: rest => if k' = k then alRemove k rest else (k', v') :: alRemove k rest

/-- `HashMap::contains_key`. -/
def alContains (k : List Nat) (l : List (List Nat × α)) : Bool :=
  (alLookup k l).isSome

/-- The two global maps `KV` and `EXP` of src/db.rs: value map and expiry map
(monotonic deadline in ms), both keyed by the lossily-decoded key string. -/
structure Db where
  kv : List (List Nat × RedisValue)
  exp : List (List Nat × Nat)
deriving Repr, DecidableEq

/-- The empty keyspace. -/
def emptyDb : Db := ⟨[], []⟩

/-- `db::set`: NX/XX short-circuits leave everything untouched; otherwise the
value is replaced and the expiry slot is set from PX (preferred), then EX,
else removed. The source always returns `Ok(())`. -/
def dbSet (key value : List Nat) (ex px : Option Nat) (nx xx : Bool) (now : Nat)
    (db : Db) : Db :=
  let keyStr := utf8Lossy key
  let keyExists := alContains keyStr db.kv
  if nx && keyExists then db
  else if xx && !keyExists then db
  else
    ⟨alInsert keyStr (RedisValue.string value) db.kv,
     match px with
     | some ms => alInsert keyStr (now + ms) db.exp
     | none =>
       match ex with
       | some sec => alInsert keyStr (now + 1000 * sec) db.exp
       | none => alRemove keyStr db.exp⟩

/-- Frame encoding of one stored value, as `db::get` builds its reply. -/
def valueReply : RedisValue → List Nat
  | .string s => (Frame.bulkString (some s)).encode
  | .integer i => (Frame.integer i).encode
  | .float s => (Frame.bulkString (some s)).encode
  | .boolean b =>
      (Frame.bulkString (some (if b then strBytes "true" else strBytes "false"))).encode
  | .null => Frame.null.encode
  | .list l => (Frame.array (some (l.map (fun v => Frame.bulkString (some v))))).encode
  | .set s => (Frame.array (some (s.map (fun v => Frame.bulkString (some v))))).encode
  | .sortedSet ss =>
      (Frame.array (some (ss.map (fun p =>
        Frame.array (some [Frame.bulkString (some p.1), Frame.bulkString (some p.2)]))))).encode
  | .hash h =>
      (Frame.array (some (h.map (fun p =>
        Frame.array (some [Frame.bulkString (some p.1), Frame.bulkString (some p.2)]))))).encode
  | .zipmap z => (Frame.bulkString (some z)).encode
  | .ziplist z => (Frame.bulkString (some z)).encode
  | .intset i => (Frame.bulkString (some i)).encode
  | .quicklist q => (Frame.bulkString (some q)).encode

/-- `db::get`: an expired deadline answers null before the value map is read. -/
def dbGet (key : List Nat) (now : Nat) (db : Db) : List Nat :=
  let k := utf8Lossy key
  match alLookup k db.exp with
  | some deadline =>
    if now > deadline then (Frame.bulkString none).encode
    else
      match alLookup k db.kv with
      | some v => valueReply v
      | none => (Frame.bulkString none).encode
  | none =>
    match alLookup k db.kv with
    | some v => valueReply v
    | none => (Frame.bulkString none).encode

/-- `db::purge_expired_keys`: collect the strictly-passed deadlines, then
remove those keys from both maps. -/
def dbPurge (now : Nat) (db : Db) : Db :=
  let expired := (db.exp.filter (fun p => now > p.2)).map (fun p => p.1)
  ⟨expired.foldl (fun m k => alRemove k m) db.kv,
   expired.foldl (fun m k => alRemove k m) db.exp⟩

/-- One parsed snapshot entry: value plus optional wall-clock expiry (unix ms),
`RedisEntry` of src/rdb.rs. -/
structure RdbEntry where
  value : RedisValue
  expiry : Option Nat
deriving Repr, DecidableEq

/-- `RdbDatabase` of src/rdb.rs, in iteration order. -/
structure RdbDatabase where
  data : List (List Nat × RdbEntry)
deriving Repr, DecidableEq

/-- One iteration of the `db::load_from_rdb` loop. -/
def loadEntryStep (nowWall nowMono : Nat) (st : Db) (e : List Nat × RdbEntry) : Db :=
  match e.2.expiry with
  | some t =>
    if t ≤ nowWall then st
    else ⟨alInsert e.1 e.2.value st.kv, alInsert e.1 (nowMono + (t - nowWall)) st.exp⟩
  | none => ⟨alInsert e.1 e.2.value st.kv, st.exp⟩

/-- `db::load_from_rdb`: clear both maps, then insert every non-expired entry,
translating wall-clock expiries to monotonic deadlines. -/
def loadFromRdb (rdb : RdbDatabase) (nowWall nowMono : Nat) (_db : Db) : Db :=
  rdb.data.foldl (loadEntryStep nowWall nowMono) emptyDb

/-- `db::get_keys_matching_pattern` for the fast-path pattern `*` (the general
glob path delegates to the external `glob` crate and no claim exercises it):
all keys of the value map. -/
def dbKeysAll (db : Db) : List (List Nat) :=
  db.kv.map (fun p => p.1)

/-! ### Command handlers (src/commands/default.rs) -/

/-- Apostrophe-quoted word, byte 39 around the text (used in error replies). -/
def quoteWord (s : String) : List Nat :=
  39 :: strBytes s ++ [39]

/-- Encoded error reply with the given message bytes. -/
def errReply (msg : List Nat) : List Nat :=
  (Frame.error msg).encode

/-- `commands::default::ping`. -/
def cmdPing (_args : List Frame) : List Nat :=
  (Frame.simpleString (strBytes "PONG")).encode

/-- `commands::default::echo`. -/
def cmdEcho (args : List Frame) : List Nat :=
  if args.length ≠ 1 then
    errReply (strBytes "ERR wrong number of arguments for " ++ quoteWord "echo")
  else
    match args with
    | (Frame.bulkString (some bs)) :: _ => (Frame.bulkString (some bs)).encode
    | _ => errReply (strBytes "ERR invalid argument for " ++ quoteWord "echo")

/-- The option-parsing loop of `commands::default::set`, returning the encoded
error reply on failure. -/
def setOptsLoop : List Frame → Option Nat → Option Nat → Bool → Bool →
    Except (List Nat) (Option Nat × Option Nat × Bool × Bool)
  | [], ex, px, nx, xx => .ok (ex, px, nx, xx)
  | a :: rest, ex, px, nx, xx =>
    match a with
    | Frame.bulkString (some opt) =>
      if eqIgnoreAsciiCase opt (strBytes "EX") then
        match rest with
        | [] => .error (strBytes "ERR syntax error: EX requires seconds")
        | b :: rest2 =>
          match b with
          | Frame.bulkString (some sec) =>
            match parseU64 (utf8Lossy sec) with
            | .ok v =>
              if v > 0 then setOptsLoop rest2 (some v) px nx xx
              else .error (strBytes "ERR EX value must be a positive integer")
            | .error _ => .error (strBytes "ERR EX value must be a positive integer")
          | _ => .error (strBytes "ERR EX value must be a positive integer")
      else if eqIgnoreAsciiCase opt (strBytes "PX") then
        match rest with
        | [] => .error (strBytes "ERR syntax error: PX requires milliseconds")
        | b :: rest2 =>
          match b with
          | Frame.bulkString (some ms) =>
            match parseU64 (utf8Lossy ms) with
            | .ok v =>
              if v > 0 then setOptsLoop rest2 ex (some v) nx xx
              else .error (strBytes "ERR PX value must be a positive integer")
            | .error _ => .error (strBytes "ERR PX value must be a positive integer")
          | _ => .error (strBytes "ERR PX value must be a positive integer")
      else if eqIgnoreAsciiCase opt (strBytes "NX") then setOptsLoop rest ex px true xx
      else if eqIgnoreAsciiCase opt (strBytes "XX") then setOptsLoop rest ex px nx true
      else .error (strBytes "ERR syntax error in " ++ quoteWord "set" ++ strBytes " options")
    | _ => .error (strBytes "ERR syntax error in " ++ quoteWord "set" ++ strBytes " options")

/-- `commands::default::set`: arity and type checks, option loop, then
`db::set` (whose `Ok(())` maps to `+OK`). -/
def cmdSet (args : List Frame) (now : Nat) (db : Db) : List Nat × Db :=
  if args.length < 2 then
    (errReply (strBytes "ERR wrong number of arguments for " ++ quoteWord "set"), db)
  else
    match args with
    | a0 :: a1 :: rest =>
      match a0 with
      | Frame.bulkString (some key) =>
        match a1 with
        | Frame.bulkString (some value) =>
          match setOptsLoop rest none none false false with
          | .error msg => (errReply msg, db)
          | .ok (ex, px, nx, xx) =>
            ((Frame.simpleString (strBytes "OK")).encode, dbSet key value ex px nx xx now db)
        | _ => (errReply (strBytes "ERR invalid value for " ++ quoteWord "set"), db)
      | _ => (errReply (strBytes "ERR invalid key for " ++ quoteWord "set"), db)
    | _ => (errReply (strBytes "ERR wrong number of arguments for " ++ quoteWord "set"), db)

/-- `commands::default::get`. -/
def cmdGet (args : List Frame) (now : Nat) (db : Db) : List Nat :=
  if args.length ≠ 1 then
    errReply (strBytes "ERR wrong number of arguments for " ++ quoteWord "get")
  else
    match args with
    | (Frame.bulkString (some key)) :: _ => dbGet key now db
    | _ => errReply (strBytes "ERR invalid key for " ++ quoteWord "get")

/-- Configuration record (`dir`, `dbfilename`) of src/config.rs. -/
structure Config where
  dir : List Nat
  dbfilename : List Nat
deriving Repr, DecidableEq

/-- `commands::default::config_get`. -/
def cmdConfigGet (args : List Frame) (cfg : Config) : List Nat :=
  if args.length ≠ 1 then
    errReply (strBytes "ERR wrong number of arguments for " ++ quoteWord "config get")
  else
    match args with
    | (Frame.bulkString (some bs)) :: _ =>
      let param := asciiLower (utf8Lossy bs)
      let value :=
        if param = strBytes "dir" then cfg.dir
        else if param = strBytes "dbfilename" then cfg.dbfilename
        else []
      (Frame.array (some [Frame.bulkString (some param),
        Frame.bulkString (some value)])).encode
    | _ => errReply (strBytes "ERR invalid argument for " ++ quoteWord "config get")

/-- `commands::default::config_set`. -/
def cmdConfigSet (args : List Frame) (cfg : Config) : List Nat × Config :=
  if args.length ≠ 2 then
    (errReply (strBytes "ERR wrong number of arguments for " ++ quoteWord "config set"), cfg)
  else
    match args with
    | (Frame.bulkString (some p)) :: (Frame.bulkString (some v)) :: _ =>
      let param := asciiLower (utf8Lossy p)
      let value := utf8Lossy v
      if param = strBytes "dir" then
        ((Frame.simpleString (strBytes "OK")).encode, { cfg with dir := value })
      else if param = strBytes "dbfilename" then
        ((Frame.simpleString (strBytes "OK")).encode, { cfg with dbfilename := value })
      else (errReply (strBytes "ERR unknown configuration parameter"), cfg)
    | (Frame.bulkString (some _)) :: _ :: _ =>
      (errReply (strBytes "ERR invalid value for " ++ quoteWord "config set"), cfg)
    | _ => (errReply (strBytes "ERR invalid argument for " ++ quoteWord "config set"), cfg)

/-- `commands::default::unknown`. -/
def unknownReply : List Nat :=
  (Frame.error (strBytes "unknown command")).encode

/-- Server-wide mutable state touched by the dispatcher: keyspace and config. -/
structure ServerState where
  db : Db
  cfg : Config
deriving Repr, DecidableEq

/-- `commands::dispatch` of src/commands/mod.rs. The match routes only
`ping`, `echo`, `set`, `get` and `config`; every other name (including
`keys` and `save`, whose handlers exist in default.rs) falls through to
`unknown`. -/
def dispatch (frame : Frame) (now : Nat) (st : ServerState) : List Nat × ServerState :=
  match frame with
  | Frame.array (some (first :: rest)) =>
    match first with
    | Frame.bulkString (some cmd) =>
      let cmdStr := asciiLower (utf8Lossy cmd)
      if cmdStr = strBytes "ping" then (cmdPing rest, st)
      else if cmdStr = strBytes "echo" then (cmdEcho rest, st)
      else if cmdStr = strBytes "set" then
        let r := cmdSet rest now st.db
        (r.1, { st with db := r.2 })
      else if cmdStr = strBytes "get" then (cmdGet rest now st.db, st)
      else if cmdStr = strBytes "config" then
        match rest with
        | [] => (errReply (strBytes "ERR wrong number of arguments for " ++
            quoteWord "config"), st)
        | sub :: rest2 =>
          match sub with
          | Frame.bulkString (some subcmd) =>
            let subStr := asciiLower (utf8Lossy subcmd)
            if subStr = strBytes "get" then (cmdConfigGet rest2 st.cfg, st)
            else if subStr = strBytes "set" then
              let r := cmdConfigSet rest2 st.cfg
              (r.1, { st with cfg := r.2 })
            else (errReply (strBytes "ERR unknown subcommand for " ++
              quoteWord "config"), st)
          | _ => (errReply (strBytes "ERR invalid subcommand for " ++
              quoteWord "config"), st)
      else (unknownReply, st)
    | _ => (errReply (strBytes "Protocol error: invalid command"), st)
  | _ => (errReply (strBytes "Protocol error: expected array"), st)

/-! ### CRC64 (the `crc64` crate, crc-64-jones as used by the snapshot codec)

The crate is table-driven; the model is the equivalent bit-at-a-time reflected
computation (poly 0xad93d23594c935a9, reflected, init 0). `xorBits` is a
structural 64-bit xor so that everything kernel-reduces. -/

/-- Bitwise xor of the low `k` bits of two naturals. -/
def xorBits : Nat → Nat → Nat → Nat
  | 0, _, _ => 0
  | k + 1, a, b =>
    (if a % 2 = b % 2 then 0 else 1) + 2 * xorBits k (a / 2) (b / 2)

/-- The reflected crc-64-jones polynomial 0x95ac9329ac4bc9b5. -/
def crcPolyRev : Nat := 10785157014839085493

/-- Eight shift-xor rounds of the reflected CRC. -/
def crcRounds : Nat → Nat → Nat
  | 0, c => c
  | k + 1, c => crcRounds k (if c % 2 = 1 then xorBits 64 (c / 2) crcPolyRev else c / 2)

/-- CRC64 update over a byte list, `crc64::crc64(init, data)`. -/
def crc64 : Nat → List Nat → Nat
  | c, [] => c
  | c, b :: rest => crc64 (crcRounds 8 (xorBits 64 c b)) rest

/-- Little-endian bytes, `k` of them (later bytes of larger values drop, as
`to_le_bytes` of a fixed-width integer does). -/
def toLE : Nat → Nat → List Nat
  | 0, _ => []
  | k + 1, n => n % 256 :: toLE k (n / 256)

/-- Value of a little-endian byte list. -/
def leNat : List Nat → Nat
  | [] => 0
  | b :: rest => b + 256 * leNat rest

/-- Decimal text of a `k`-bit two's-complement value held in `n < 2^k`. -/
def signedDec (k n : Nat) : List Nat :=
  if n < 2 ^ (k - 1) then natDecimal n else 45 :: natDecimal (2 ^ k - n)

/-! ### RDB snapshot writing (`rdb::save`, src/rdb.rs) -/

/-- `write_rdb_length`. -/
def writeRdbLength (len : Nat) : Except String (List Nat) :=
  if len < 64 then .ok [len]
  else if len < 16384 then .ok [64 + len / 256, len % 256]
  else if len < 4294967296 then .ok (128 :: toLE 4 len)
  else .error "Length too large for RDB format"

/-- `write_length_prefixed_bytes` (and `_string`, identical on bytes). -/
def writeLenPrefixed (bytes : List Nat) : Except String (List Nat) :=
  (writeRdbLength bytes.length).map (· ++ bytes)

/-- Length-prefixed item list for List/Set payloads. -/
def writeItems : List (List Nat) → Except String (List Nat)
  | [] => .ok []
  | item :: rest => do
    let ib ← writeLenPrefixed item
    let rb ← writeItems rest
    pure (ib ++ rb)

/-- The separator-joined byte form `rdb::save` uses for Hash values. -/
def hashJoin : List (List Nat × List Nat) → List Nat
  | [] => []
  | (k, v) :: rest => k ++ [0] ++ v ++ [0] ++ hashJoin rest

/-- Opcode, key and payload bytes of one value record of `rdb::save`;
`Null` values are skipped (empty output). -/
def saveValueBytes (key : List Nat) : RedisValue → Except String (List Nat)
  | .string s => do
    let kb ← writeLenPrefixed key
    let vb ← writeLenPrefixed s
    pure (0 :: kb ++ vb)
  | .list items => do
    let kb ← writeLenPrefixed key
    let cb ← writeRdbLength items.length
    let ib ← writeItems items
    pure (1 :: kb ++ cb ++ ib)
  | .set items => do
    let kb ← writeLenPrefixed key
    let cb ← writeRdbLength items.length
    let ib ← writeItems items
    pure (2 :: kb ++ cb ++ ib)
  | .ziplist d => do
    let kb ← writeLenPrefixed key
    let vb ← writeLenPrefixed d
    pure (10 :: kb ++ vb)
  | .zipmap d => do
    let kb ← writeLenPrefixed key
    let vb ← writeLenPrefixed d
    pure (4 :: kb ++ vb)
  | .intset d => do
    let kb ← writeLenPrefixed key
    let vb ← writeLenPrefixed d
    pure (11 :: kb ++ vb)
  | .quicklist d => do
    let kb ← writeLenPrefixed key
    let vb ← writeLenPrefixed d
    pure (13 :: kb ++ vb)
  | .integer i => do
    let kb ← writeLenPrefixed key
    let vb ← writeLenPrefixed (intDecimal i)
    pure (0 :: kb ++ vb)
  | .float s => do
    let kb ← writeLenPrefixed key
    let vb ← writeLenPrefixed s
    pure (0 :: kb ++ vb)
  | .boolean b => do
    let kb ← writeLenPrefixed key
    let vb ← writeLenPrefixed (if b then strBytes "true" else strBytes "false")
    pure (0 :: kb ++ vb)
  | .hash h => do
    let kb ← writeLenPrefixed key
    let vb ← writeLenPrefixed (hashJoin h)
    pure (4 :: kb ++ vb)
  | .sortedSet ss => do
    let kb ← writeLenPrefixed key
    let vb ← writeLenPrefixed (hashJoin ss)
    pure (3 :: kb ++ vb)
  | .null => .ok []

/-- One key's record: optional `0xFC` millisecond-expiry prefix (emitted even
when the value then turns out to be `Null` and is skipped), then the value
record. -/
def saveEntryBytes (exp : List (List Nat × Nat)) (nw nm : Nat) (key : List Nat)
    (v : RedisValue) : Except String (List Nat) := do
  let expiryPart :=
    match alLookup key exp with
    | some deadline => if deadline > nm then 252 :: toLE 8 (nw + (deadline - nm)) else []
    | none => []
  let vb ← saveValueBytes key v
  pure (expiryPart ++ vb)

/-- All key/value records in iteration order. -/
def saveEntriesBytes (kv : List (List Nat × RedisValue)) (exp : List (List Nat × Nat))
    (nw nm : Nat) : Except String (List Nat) :=
  match kv with
  | [] => .ok []
  | (k, v) :: rest => do
    let eb ← saveEntryBytes exp nw nm k v
    let rb ← saveEntriesBytes rest exp nw nm
    pure (eb ++ rb)

/-- Magic and version bytes `rdb::save` writes: `REDIS` then the raw bytes
`[0, 0, 0, 11]` (not the ASCII digits `"0011"`). -/
def rdbHeaderBytes : List Nat := [82, 69, 68, 73, 83, 0, 0, 0, 11]

/-- The `file_bytes` stream `rdb::save` builds for a given keyspace: header,
database selector `0xFE 0`, resize hint `0xFB`, the records, `0xFF`, then the
CRC64 of everything so far, little-endian. `nw`/`nm` are the wall and
monotonic clocks read at the start of save. -/
def rdbSaveBytes (db : Db) (nw nm : Nat) : Except String (List Nat) := do
  let l0 ← writeRdbLength 0
  let lkv ← writeRdbLength db.kv.length
  let lexp ← writeRdbLength db.exp.length
  let entries ← saveEntriesBytes db.kv db.exp nw nm
  let body := 254 :: l0 ++ 251 :: (lkv ++ lexp) ++ entries ++ [255]
  pure (rdbHeaderBytes ++ (body ++ toLE 8 (crc64 0 (rdbHeaderBytes ++ body))))

/-- `rdb::save` purges expired keys first, then serialises the keyspace. Only
the byte stream is modelled (the temp-file/rename IO is not state of any
claim). -/
def rdbSave (db : Db) (nw nm : Nat) : Except String (List Nat) :=
  rdbSaveBytes (dbPurge nm db) nw nm

/-! ### LZF decompression (`lzf_decompress_fallback`, src/rdb.rs) -/

/-- The copy loop of the back-reference case: the source breaks out as soon as
`start_pos + j` reaches the output length (it never does once the copy has
started, since both sides grow in step). -/
def lzfCopy : Nat → Nat → List Nat → List Nat
  | 0, _, out => out
  | j + 1, pos, out =>
    if pos ≥ out.length then out
    else lzfCopy j (pos + 1) (out ++ [out.getD pos 0])

/-- The main loop of `lzf_decompress_fallback` over an index `i` into the
fixed input. Each iteration consumes at least the control byte, so the fuel
`compressed.length + 1` of the wrapper is exact. The source computes the
extended length `7 + ext` into an unused binding named `_offset` and then
keeps using `len = 7`; the model reproduces that. -/
def lzfGo (compressed : List Nat) : Nat → Nat → List Nat → Except String (List Nat)
  | 0, _, _ => .error "lzf fuel exhausted"
  | fuel + 1, i, output =>
    if i < compressed.length then
      let ctrl := compressed.getD i 0
      let i1 := i + 1
      if ctrl < 32 then
        let len := ctrl + 1
        if i1 + len > compressed.length then
          .error "Invalid LZF data: literal run extends beyond input"
        else lzfGo compressed fuel (i1 + len) (output ++ (compressed.drop i1).take len)
      else
        let len := ctrl / 32
        let step : Except String Nat :=
          if len = 7 then
            if i1 ≥ compressed.length then .error "Invalid LZF data: missing extended length"
            else .ok (i1 + 1)
          else .ok i1
        match step with
        | .error e => .error e
        | .ok i2 =>
          if i2 + 1 ≥ compressed.length then .error "Invalid LZF data: missing offset bytes"
          else
            let offsetBytes := ctrl % 32 * 256 + compressed.getD i2 0
            let i3 := i2 + 1
            let backRefLen := len + 2
            let backRefOffset := offsetBytes + 1
            if backRefOffset > output.length then
              .error "Invalid LZF data: back reference beyond output"
            else lzfGo compressed fuel i3 (lzfCopy backRefLen (output.length - backRefOffset) output)
    else .ok output

/-- `lzf_decompress_fallback` (the `expected_len` argument only sizes the
output allocation in the source). -/
def lzfDecompressFallback (compressed : List Nat) (_expectedLen : Nat) :
    Except String (List Nat) :=
  lzfGo compressed (compressed.length + 1) 0 []

/-- Modelled from the spec (§4.4 LZF decompression of spec.md), for comparison
with the source: a control byte below 0x20 copies `ctrl+1` literal bytes;
otherwise the length is the high 3 bits, extended by a following byte when it
is 7, the offset is `((ctrl and 0x1F) shl 8) or next`, the reference length is
`len+2`, and the copy proceeds byte by byte over the existing output. -/
def lzfSpecGo (compressed : List Nat) : Nat → Nat → List Nat → Except String (List Nat)
  | 0, _, _ => .error "lzf fuel exhausted"
  | fuel + 1, i, output =>
    if i < compressed.length then
      let ctrl := compressed.getD i 0
      let i1 := i + 1
      if ctrl < 32 then
        let len := ctrl + 1
        if i1 + len > compressed.length then .error "literal run extends beyond input"
        else lzfSpecGo compressed fuel (i1 + len) (output ++ (compressed.drop i1).take len)
      else
        let hi := ctrl / 32
        let extStep : Except String (Nat × Nat) :=
          if hi = 7 then
            if i1 ≥ compressed.length then .error "missing extended length"
            else .ok (7 + compressed.getD i1 0, i1 + 1)
          else .ok (hi, i1)
        match extStep with
        | .error e => .error e
        | .ok (len, i2) =>
          if i2 ≥ compressed.length then .error "missing offset byte"
          else
            let offsetBytes := ctrl % 32 * 256 + compressed.getD i2 0
            let i3 := i2 + 1
            let refLen := len + 2
            let dist := offsetBytes + 1
            if dist > output.length then .error "back reference beyond output"
            else lzfSpecGo compressed fuel i3 (lzfCopy refLen (output.length - dist) output)
    else .ok output

/-- Spec-modelled LZF decompression. -/
def lzfSpecDecompress (compressed : List Nat) : Except String (List Nat) :=
  lzfSpecGo compressed (compressed.length + 1) 0 []

/-! ### RDB snapshot parsing (`RdbParser::parse`, src/rdb.rs)

The reader is the remaining input list; `file_bytes` (the CRC accumulation
buffer) is threaded alongside, reproducing exactly where the source pushes
read bytes into it. `read_exact` hitting end of input is the io error
`"failed to fill whole buffer"`, except at the top of the record loop where
the source breaks out instead. -/

/-- `read_exact` into an `n`-byte buffer: the bytes and the remaining input. -/
def readN : Nat → List Nat → Option (List Nat × List Nat)
  | 0, l => some ([], l)
  | _ + 1, [] => none
  | n + 1, a :: l => (readN n l).map (fun p => (a :: p.1, p.2))

/-- The io `read_exact` end-of-file message. -/
def msgEof : String := "failed to fill whole buffer"

/-- `read_rdb_length`: returns the decoded length, remaining input and updated
`file_bytes`. The lower-six-bits special encodings return the byte width of
the embedded integer (or the compressed length for LZF), as the source does.
Fuel bounds the LZF-case self-recursion; call sites pass the remaining input
length plus one, which is exact since each level first consumes a byte. -/
def readRdbLength : Nat → List Nat → List Nat →
    Except String (Nat × List Nat × List Nat)
  | 0, _, _ => .error "length fuel exhausted"
  | fuel + 1, input, fileBytes =>
    match input with
    | [] => .error msgEof
    | first :: r1 =>
      let fb1 := fileBytes ++ [first]
      let encType := first / 64
      let len := first % 64
      if encType = 0 then .ok (len, r1, fb1)
      else if encType = 1 then
        match r1 with
        | [] => .error msgEof
        | second :: r2 => .ok (len * 256 + second, r2, fb1 ++ [second])
      else if encType = 2 then
        match readN 4 r1 with
        | none => .error msgEof
        | some (buf, r2) => .ok (leNat buf, r2, fb1 ++ buf)
      else
        if len = 0 then
          match r1 with
          | [] => .error msgEof
          | b :: r2 => .ok (1, r2, fb1 ++ [b])
        else if len = 1 then
          match readN 2 r1 with
          | none => .error msgEof
          | some (buf, r2) => .ok (2, r2, fb1 ++ buf)
        else if len = 2 then
          match readN 4 r1 with
          | none => .error msgEof
          | some (buf, r2) => .ok (4, r2, fb1 ++ buf)
        else if len = 3 then do
          let (clen, r2, fb2) ← readRdbLength fuel r1 fb1
          let (_ulen, r3, fb3) ← readRdbLength fuel r2 fb2
          .ok (clen, r3, fb3)
        else .error ("Unknown special RDB encoding: " ++ toString len)

/-- `read_string_with_encoding`. For the plain length encodings the source
"puts the byte back" only in `file_bytes` — the reader has already consumed
it, so the subsequent `read_rdb_length` reads the next byte of the stream and
`file_bytes` permanently loses the first byte. The model reproduces this. -/
def readStringEnc (input fileBytes : List Nat) :
    Except String (List Nat × List Nat × List Nat) :=
  match input with
  | [] => .error msgEof
  | first :: r1 =>
    let fb1 := fileBytes ++ [first]
    let encType := first / 64
    let len := first % 64
    if encType ≤ 2 then
      match readRdbLength (r1.length + 1) r1 fileBytes with
      | .error e => .error e
      | .ok (actualLen, r2, fb2) =>
        match readN actualLen r2 with
        | none => .error msgEof
        | some (buf, r3) => .ok (buf, r3, fb2 ++ buf)
    else if len = 0 then
      match r1 with
      | [] => .error msgEof
      | b :: r2 => .ok (signedDec 8 b, r2, fb1 ++ [b])
    else if len = 1 then
      match readN 2 r1 with
      | none => .error msgEof
      | some (buf, r2) => .ok (signedDec 16 (leNat buf), r2, fb1 ++ buf)
    else if len = 2 then
      match readN 4 r1 with
      | none => .error msgEof
      | some (buf, r2) => .ok (signedDec 32 (leNat buf), r2, fb1 ++ buf)
    else if len = 3 then
      match readRdbLength (r1.length + 1) r1 fb1 with
      | .error e => .error e
      | .ok (clen, r2, fb2) =>
        match readRdbLength (r2.length + 1) r2 fb2 with
        | .error e => .error e
        | .ok (ulen, r3, fb3) =>
          match readN clen r3 with
          | none => .error msgEof
          | some (buf, r4) =>
            match lzfDecompressFallback buf ulen with
            | .ok data => .ok (data, r4, fb3 ++ buf)
            | .error _ => .error "Failed to decompress LZF data"
    else .error ("Unknown special string encoding: " ++ toString len)

/-- `read_length_prefixed_string`: the decoded bytes are passed through
`String::from_utf8_lossy`. -/
def readLenString (input fileBytes : List Nat) :
    Except String (List Nat × List Nat × List Nat) :=
  (readStringEnc input fileBytes).map (fun r => (utf8Lossy r.1, r.2.1, r.2.2))

/-- Item loop for List/Set records. -/
def readItemsLoop : Nat → List Nat → List Nat →
    Except String (List (List Nat) × List Nat × List Nat)
  | 0, input, fileBytes => .ok ([], input, fileBytes)
  | n + 1, input, fileBytes =>
    match readStringEnc input fileBytes with
    | .error e => .error e
    | .ok (item, r1, fb1) =>
      match readItemsLoop n r1 fb1 with
      | .error e => .error e
      | .ok (items, r2, fb2) => .ok (item :: items, r2, fb2)

/-- Build the `RedisValue` a value-type opcode stores. -/
def opcodeValue (opcode : Nat) (payload : List Nat) : RedisValue :=
  if opcode = 0 then .string payload
  else if opcode = 3 ∨ opcode = 9 ∨ opcode = 10 then .ziplist payload
  else if opcode = 4 then .zipmap payload
  else if opcode = 11 ∨ opcode = 12 then .intset payload
  else .quicklist payload

/-- The record loop of `RdbParser::parse`. Returns the parsed entries, the
remaining input and the accumulated `file_bytes` when it breaks (on `0xFF`,
which is pushed to `file_bytes` first, or on end of input). Fuel is the
remaining input length plus one — exact, since every iteration consumes the
opcode byte. -/
def rdbLoop : Nat → List Nat → List Nat → List (List Nat × RdbEntry) → Option Nat →
    Except String (List (List Nat × RdbEntry) × List Nat × List Nat)
  | 0, _, _, _, _ => .error "rdb fuel exhausted"
  | fuel + 1, input, fileBytes, data, curExp =>
    match input with
    | [] => .ok (data, [], fileBytes)
    | opcode :: r1 =>
      let fb := fileBytes ++ [opcode]
      if opcode = 250 then
        match readLenString r1 fb with
        | .error e => .error e
        | .ok (_key, r2, fb2) =>
          match readLenString r2 fb2 with
          | .error e => .error e
          | .ok (_value, r3, fb3) => rdbLoop fuel r3 fb3 data curExp
      else if opcode = 251 then
        match readRdbLength (r1.length + 1) r1 fb with
        | .error e => .error e
        | .ok (_htSize, r2, fb2) =>
          match readRdbLength (r2.length + 1) r2 fb2 with
          | .error e => .error e
          | .ok (_expSize, r3, fb3) => rdbLoop fuel r3 fb3 data curExp
      else if opcode = 254 then
        match readRdbLength (r1.length + 1) r1 fb with
        | .error e => .error e
        | .ok (_dbNum, r2, fb2) => rdbLoop fuel r2 fb2 data curExp
      else if opcode = 253 then
        match readN 4 r1 with
        | none => .error msgEof
        | some (buf, r2) => rdbLoop fuel r2 (fb ++ buf) data (some (leNat buf * 1000))
      else if opcode = 252 then
        match readN 8 r1 with
        | none => .error msgEof
        | some (buf, r2) => rdbLoop fuel r2 (fb ++ buf) data (some (leNat buf))
      else if opcode = 255 then .ok (data, r1, fb)
      else if opcode = 0 then
        match readLenString r1 fb with
        | .error e => .error e
        | .ok (key, r2, fb2) =>
          match readStringEnc r2 fb2 with
          | .error e => .error e
          | .ok (value, r3, fb3) =>
            rdbLoop fuel r3 fb3 (alInsert key ⟨.string value, curExp⟩ data) none
      else if opcode = 1 ∨ opcode = 2 then
        match readLenString r1 fb with
        | .error e => .error e
        | .ok (key, r2, fb2) =>
          match readRdbLength (r2.length + 1) r2 fb2 with
          | .error e => .error e
          | .ok (len, r3, fb3) =>
            match readItemsLoop len r3 fb3 with
            | .error e => .error e
            | .ok (items, r4, fb4) =>
              let v : RedisValue := if opcode = 1 then .list items else .set items
              rdbLoop fuel r4 fb4 (alInsert key ⟨v, curExp⟩ data) none
      else if opcode = 3 ∨ opcode = 4 ∨ opcode = 9 ∨ opcode = 10 ∨ opcode = 11 ∨
          opcode = 12 ∨ opcode = 13 then
        match readLenString r1 fb with
        | .error e => .error e
        | .ok (key, r2, fb2) =>
          match readStringEnc r2 fb2 with
          | .error e => .error e
          | .ok (payload, r3, fb3) =>
            rdbLoop fuel r3 fb3 (alInsert key ⟨opcodeValue opcode payload, curExp⟩ data) none
      else .error ("Unsupported RDB value type: " ++ toString opcode)

/-- `RdbParser::parse`: magic, version (the ASCII digits `"0011"` = bytes
`[48, 48, 49, 49]` are required), the record loop, then the 8-byte CRC64
which must match the CRC of the accumulated `file_bytes`. -/
def rdbParse (input : List Nat) : Except String RdbDatabase :=
  match readN 5 input with
  | none => .error msgEof
  | some (magic, r1) =>
    if magic = [82, 69, 68, 73, 83] then
      match readN 4 r1 with
      | none => .error msgEof
      | some (version, r2) =>
        if version = [48, 48, 49, 49] then
          match rdbLoop (r2.length + 1) r2 ([82, 69, 68, 73, 83] ++ version) [] none with
          | .error e => .error e
          | .ok (data, rem, fileBytes) =>
            match readN 8 rem with
            | none => .error msgEof
            | some (checksum, _) =>
              if leNat checksum = crc64 0 fileBytes then .ok ⟨data⟩
              else .error "RDB checksum mismatch"
        else .error "Unsupported RDB version"
    else .error "Invalid RDB magic string"

/-- The load pipeline: parse the stream, and only on success run
`db::load_from_rdb`; a failed parse leaves the keyspace untouched. -/
def rdbLoadApply (input : List Nat) (nw nm : Nat) (db : Db) : Db :=
  match rdbParse input with
  | .ok d => loadFromRdb d nw nm db
  | .error _ => db

/-- Whether an `Except` is an error. -/
def excIsErr : Except String RdbDatabase → Bool
  | .error _ => true
  | .ok _ => false

/-! ### Claim-level definitions -/

/-- A bulk-string argument frame, as the dispatcher receives command words. -/
def bulkArg (s : String) : Frame :=
  Frame.bulkString (some (strBytes s))

/-- Keyspace states reachable from the empty keyspace by the mutating
operations of src/db.rs (`set`, `purge_expired_keys`, `load_from_rdb`);
`get` and `get_keys_matching_pattern` take read locks and leave both maps
unchanged, so they do not alter the state. -/
inductive Reachable : Db → Prop
  | empty : Reachable emptyDb
  | set (key value : List Nat) (ex px : Option Nat) (nx xx : Bool) (now : Nat) {db : Db} :
      Reachable db → Reachable (dbSet key value ex px nx xx now db)
  | purge (now : Nat) {db : Db} : Reachable db → Reachable (dbPurge now db)
  | load (rdb : RdbDatabase) (nw nm : Nat) {db : Db} :
      Reachable db → Reachable (loadFromRdb rdb nw nm db)

/-- The cross-map invariant: every key of the expiry map is in the value map. -/
def expSubsetKv (db : Db) : Prop :=
  ∀ k, (alLookup k db.exp).isSome = true → (alLookup k db.kv).isSome = true

/-! ### Helper lemmas -/

/-- Lookup after insert-or-replace. -/
theorem alLookup_insert {α : Type} (q k : List Nat) (v : α) (l : List (List Nat × α)) :
    alLookup q (alInsert k v l) = if k = q then some v else alLookup q l := by
  induction l with
  | nil => by_cases hq : k = q <;> simp [alInsert, alLookup, hq]
  | cons hd tl ih =>
    obtain ⟨k', v'⟩ := hd
    by_cases hk : k' = k
    · subst hk
      by_cases hq : k' = q <;> simp [alInsert, alLookup, hq]
    · have hk2 : ¬ k = k' := fun e => hk e.symm
      by_cases hq : k' = q
      · subst hq
        simp [alInsert, alLookup, hk, hk2]
      · simp [alInsert, alLookup, hk, hq, ih]

/-- Lookup after removal. -/
theorem alLookup_remove {α : Type} (q k : List Nat) (l : List (List Nat × α)) :
    alLookup q (alRemove k l) = if k = q then none else alLookup q l := by
  induction l with
  | nil => simp [alRemove, alLookup]
  | cons hd tl ih =>
    obtain ⟨k', v'⟩ := hd
    by_cases hk : k' = k
    · subst hk
      by_cases hq : k' = q
      · subst hq
        simp [alRemove, alLookup, ih]
      · have hq2 : ¬ k' = q := hq
        simp [alRemove, alLookup, ih, hq2]
    · by_cases hq : k' = q
      · subst hq
        have hk2 : ¬ k = k' := fun e => hk e.symm
        simp [alRemove, alLookup, hk, hk2]
      · simp [alRemove, alLookup, hk, hq, ih]

/-- Lookup after the purge loop's sequence of removals. -/
theorem alLookup_foldl_remove {α : Type} (q : List Nat) (ks : List (List Nat))
    (m : List (List Nat × α)) :
    alLookup q (ks.foldl (fun acc k => alRemove k acc) m) =
      if q ∈ ks then none else alLookup q m := by
  induction ks generalizing m with
  | nil => simp
  | cons hd tl ih =>
    simp only [List.foldl_cons, ih, alLookup_remove, List.mem_cons]
    by_cases h1 : q ∈ tl
    · simp [h1]
    · by_cases h2 : hd = q
      · subst h2
        simp [h1]
      · have h3 : ¬ q = hd := fun e => h2 e.symm
        simp [h1, h2, h3]

/-- `db::set` preserves the cross-map invariant. -/
theorem expSubsetKv_dbSet (key value : List Nat) (ex px : Option Nat) (nx xx : Bool)
    (now : Nat) (db : Db) (h : expSubsetKv db) :
    expSubsetKv (dbSet key value ex px nx xx now db) := by
  by_cases h1 : (nx && alContains (utf8Lossy key) db.kv) = true
  · simpa [dbSet, h1] using h
  · by_cases h2 : (xx && !alContains (utf8Lossy key) db.kv) = true
    · simpa [dbSet, h1, h2] using h
    · intro q hq
      simp only [dbSet, h1, h2, if_false, Bool.false_eq_true] at hq ⊢
      rw [alLookup_insert]
      by_cases hk : utf8Lossy key = q
      · simp [hk]
      · simp only [hk, if_false, ite_false]
        apply h q
        cases px with
        | some ms => simpa [alLookup_insert, hk] using hq
        | none =>
          cases ex with
          | some sec => simpa [alLookup_insert, hk] using hq
          | none => simpa [alLookup_remove, hk] using hq

/-- `db::purge_expired_keys` preserves the cross-map invariant. -/
theorem expSubsetKv_dbPurge (now : Nat) (db : Db) (h : expSubsetKv db) :
    expSubsetKv (dbPurge now db) := by
  intro q hq
  simp only [dbPurge, alLookup_foldl_remove] at hq ⊢
  by_cases hm : q ∈ (db.exp.filter (fun p => now > p.2)).map (fun p => p.1)
  · simp [hm] at hq
  · simp only [hm, ite_false] at hq ⊢
    exact h q hq

/-- One load iteration preserves the cross-map invariant: it inserts into the
expiry map only together with the value-map insert of the same key. -/
theorem expSubsetKv_loadStep (nw nm : Nat) (st : Db) (e : List Nat × RdbEntry)
    (h : expSubsetKv st) : expSubsetKv (loadEntryStep nw nm st e) := by
  obtain ⟨key, entry⟩ := e
  intro q hq
  cases hx : entry.expiry with
  | some t =>
    by_cases ht : t ≤ nw
    · simp only [loadEntryStep, hx, ht, if_true] at hq ⊢
      exact h q hq
    · simp only [loadEntryStep, hx, ht, if_false] at hq ⊢
      rw [alLookup_insert]
      by_cases hk : key = q
      · simp [hk]
      · simp only [hk, ite_false]
        apply h q
        simpa [alLookup_insert, hk] using hq
  | none =>
    simp only [loadEntryStep, hx] at hq ⊢
    rw [alLookup_insert]
    by_cases hk : key = q
    · simp [hk]
    · simp only [hk, ite_false]
      exact h q hq

/-- The whole load fold preserves the cross-map invariant. -/
theorem expSubsetKv_foldLoad (nw nm : Nat) (entries : List (List Nat × RdbEntry))
    (st : Db) (h : expSubsetKv st) :
    expSubsetKv (entries.foldl (loadEntryStep nw nm) st) := by
  induction entries generalizing st with
  | nil => exact h
  | cons hd tl ih => exact ih _ (expSubsetKv_loadStep nw nm st hd h)

/-- Bind of an ok value in `Except`. -/
theorem exceptBindOk {α β : Type} (a : α) (f : α → Except String β) :
    (Except.ok a : Except String α) >>= f = f a := rfl

/-- Bind of an error in `Except`. -/
theorem exceptBindErr {α β : Type} (e : String) (f : α → Except String β) :
    (Except.error e : Except String α) >>= f = .error e := rfl

/-- Every byte stream `rdb::save` serialises starts with `REDIS` followed by
the raw version bytes `[0, 0, 0, 11]`. -/
theorem rdbSaveBytes_header {db : Db} {nw nm : Nat} {bytes : List Nat}
    (h : rdbSaveBytes db nw nm = .ok bytes) :
    ∃ rest, bytes = rdbHeaderBytes ++ rest := by
  unfold rdbSaveBytes at h
  cases h0 : writeRdbLength 0 with
  | error e => rw [h0, exceptBindErr] at h; exact absurd h (by simp)
  | ok l0 =>
    rw [h0, exceptBindOk] at h
    cases h1 : writeRdbLength db.kv.length with
    | error e => rw [h1, exceptBindErr] at h; exact absurd h (by simp)
    | ok lkv =>
      rw [h1, exceptBindOk] at h
      cases h2 : writeRdbLength db.exp.length with
      | error e => rw [h2, exceptBindErr] at h; exact absurd h (by simp)
      | ok lexp =>
        rw [h2, exceptBindOk] at h
        cases h3 : saveEntriesBytes db.kv db.exp nw nm with
        | error e => rw [h3, exceptBindErr] at h; exact absurd h (by simp)
        | ok entries =>
          rw [h3, exceptBindOk] at h
          simp only [pure, Except.pure, Except.ok.injEq] at h
          exact ⟨_, h.symm⟩

/-- `excIsErr` of an error. -/
theorem excIsErr_error (e : String) : excIsErr (.error e) = true := rfl

/-- `excIsErr` of an if whose branches are both errors. -/
theorem excIsErr_ite (c : Prop) [Decidable c] (e1 e2 : String) :
    excIsErr (if c then Except.error e1 else Except.error e2) = true := by
  split <;> rfl

/-- A failed parse leaves any prior keyspace untouched through the load
pipeline. -/
theorem loadApply_of_err {input : List Nat}
    (h : excIsErr (rdbParse input) = true) :
    ∀ (db0 : Db) (nw0 nm0 : Nat), rdbLoadApply input nw0 nm0 db0 = db0 := by
  intro db0 nw0 nm0
  unfold rdbLoadApply
  cases hP : rdbParse input with
  | error e => rfl
  | ok d => rw [hP] at h; exact absurd h (by simp [excIsErr])

/-! ### Claims -/

set_option maxRecDepth 10000 in
/-- C1: the claim says load(save(S)) = S for String/List/Set states without
past expiries. It fails for every state, already at the header: `rdb::save`
writes the version as the raw bytes `[0, 0, 0, 11]` while `RdbParser::parse`
accepts only the ASCII digits `"0011"`, so loading the snapshot of the
single-String-key state of key k and value "v" (and of any other state)
errors with "Unsupported RDB version" instead of returning the state. -/
theorem c1_rdb_roundtrip_fails_on_version :
    (rdbSave ⟨[(strBytes "k", RedisValue.string (strBytes "v"))], []⟩ 17 5).bind rdbParse
      = .error "Unsupported RDB version" := by
  rfl

/-- C2: the claim says parse(encode(F)) = F for every frame of depth at most
4. It fails at depth 2: for `F = Map [(Integer 1, Integer 2)]`, `parse_map`
parses key and value on clones of its buffer and doubles the buffer with
`unsplit` after each, so both pair components come from the first frame and
the parser returns `Map [(Integer 1, Integer 1)] ≠ F` (with a corrupted
four-fold buffer left behind). -/
theorem c2_resp_aggregate_roundtrip_fails :
    frameParse (Frame.map (some [(.integer 1, .integer 2)])).encode =
      .res (.ok (some (Frame.map (some [(.integer 1, .integer 1)]))))
        (strBytes ":1\r\n:2\r\n:1\r\n:2\r\n:1\r\n:2\r\n:1\r\n:2\r\n") ∧
    Frame.map (some [(.integer 1, .integer 1)]) ≠
      Frame.map (some [(.integer 1, .integer 2)]) := by
  constructor
  · rfl
  · simp

/-- C3: the claim says parse() on a strict prefix of a valid encoding reports
incomplete and leaves the buffer unchanged so a retry succeeds. It fails:
`"$5\r\nhel"` is a strict prefix of the valid `"$5\r\nhello\r\n"` (the
encoding of bulk "hello"), `parse_bulk` reports "Incomplete" but has already
consumed the `$5` header line, so the buffer becomes `"hel"`, and after
feeding the remaining bytes the retry fails with "Unexpected byte: 104"
instead of yielding the frame. -/
theorem c3_partial_parse_consumes_buffer :
    strBytes "$5\r\nhel" ++ strBytes "lo\r\n" =
      (Frame.bulkString (some (strBytes "hello"))).encode ∧
    frameParse (strBytes "$5\r\nhel") = .res (.error msgIncomplete) (strBytes "hel") ∧
    strBytes "hel" ≠ strBytes "$5\r\nhel" ∧
    frameParse (strBytes "hel" ++ strBytes "lo\r\n") =
      .res (.error (strBytes "Unexpected byte: 104")) (strBytes "hello\r\n") := by
  refine ⟨rfl, rfl, ?_, rfl⟩
  decide

/-- C4: the claim says SET with both NX and XX, or both EX and PX, replies
with an Error frame and leaves the keyspace unchanged. It fails: the source
never checks for conflicts. `SET k v EX 10 PX 5000` replies `+OK` and mutates
the keyspace (PX silently wins), and `SET k v NX XX` replies `+OK` (the
keyspace is unchanged there, but the reply is not an Error frame). -/
theorem c4_set_conflicting_options_accepted :
    cmdSet [bulkArg "k", bulkArg "v", bulkArg "EX", bulkArg "10", bulkArg "PX",
        bulkArg "5000"] 100 emptyDb =
      (strBytes "+OK\r\n",
        ⟨[(strBytes "k", RedisValue.string (strBytes "v"))], [(strBytes "k", 5100)]⟩) ∧
    cmdSet [bulkArg "k", bulkArg "v", bulkArg "NX", bulkArg "XX"] 100 emptyDb =
      (strBytes "+OK\r\n", emptyDb) ∧
    strBytes "+OK\r\n" ≠ (Frame.error (strBytes "x")).encode := by
  refine ⟨rfl, rfl, ?_⟩
  decide

/-- C5: the claim says the dispatcher routes KEYS (array-of-bulks reply) and
SAVE (+OK or error), neither answered as unknown. It fails: `dispatch` has no
match arm for either name, so both well-formed commands fall through to the
unknown-command error reply (the `keys` and `save` handlers exist in
default.rs but are unreachable), for every server state. -/
theorem c5_dispatch_keys_save_unknown : ∀ (st : ServerState) (now : Nat),
    dispatch (Frame.array (some [bulkArg "KEYS", bulkArg "*"])) now st = (unknownReply, st) ∧
    dispatch (Frame.array (some [bulkArg "SAVE"])) now st = (unknownReply, st) ∧
    unknownReply = strBytes "-unknown command\r\n" := by
  intro st now
  exact ⟨rfl, rfl, rfl⟩

/-- C6: the claim says SET ... NX on an existing key leaves value and expiry
unchanged and replies with a null bulk string. The unchanged part holds, but
the reply is `+OK` (db::set returns Ok(()) on the NX short-circuit and the
handler maps every Ok to +OK), not the null bulk `$-1` the claim requires. -/
theorem c6_set_nx_existing_replies_ok :
    cmdSet [bulkArg "k", bulkArg "v2", bulkArg "NX"] 7
        ⟨[(strBytes "k", RedisValue.string (strBytes "v1"))], []⟩ =
      (strBytes "+OK\r\n", ⟨[(strBytes "k", RedisValue.string (strBytes "v1"))], []⟩) ∧
    strBytes "+OK\r\n" ≠ (Frame.bulkString none).encode := by
  refine ⟨rfl, ?_⟩
  decide

/-- C7: changing any single byte of a serialised snapshot (at any position —
inside or outside the trailing 8 CRC bytes) makes the load fail and leaves
any prior keyspace untouched. This holds, but vacuously early: every stream
`rdb::save` produces already fails the parser's version check (see C1), and a
one-byte change either breaks the magic or leaves the rejected raw version
bytes in place, so the parse errors before any state is built. -/
theorem c7_corrupted_snapshot_load_fails (db : Db) (nw nm : Nat) (bytes : List Nat)
    (hok : rdbSave db nw nm = .ok bytes) (i : Nat) (hi : i < bytes.length)
    (b : Nat) (hb : b ≠ bytes.getD i 0) :
    excIsErr (rdbParse (bytes.set i b)) = true ∧
    ∀ (db0 : Db) (nw0 nm0 : Nat), rdbLoadApply (bytes.set i b) nw0 nm0 db0 = db0 := by
  obtain ⟨rest, hbytes⟩ := rdbSaveBytes_header hok
  subst hbytes
  have hE : excIsErr (rdbParse ((rdbHeaderBytes ++ rest).set i b)) = true := by
    rcases Nat.lt_or_ge i 9 with h9 | h9
    · interval_cases i <;>
        simp [rdbParse, rdbHeaderBytes, readN, List.set, excIsErr_error, excIsErr_ite]
    · obtain ⟨j, rfl⟩ : ∃ j, i = 9 + j := ⟨i - 9, by omega⟩
      rw [Nat.add_comm]
      rfl
  exact ⟨hE, loadApply_of_err hE⟩

set_option maxRecDepth 10000 in
/-- Witness for C7: the empty keyspace's snapshot with its first byte flipped
from 82 to 1 fails to load and leaves any keyspace unchanged. -/
theorem c7_corrupted_snapshot_load_fails_witness :
    excIsErr (rdbParse (([82, 69, 68, 73, 83, 0, 0, 0, 11, 254, 0, 251, 0, 0, 255,
      171, 201, 147, 129, 5, 68, 237, 189] : List Nat).set 0 1)) = true ∧
    ∀ (db0 : Db) (nw0 nm0 : Nat),
      rdbLoadApply (([82, 69, 68, 73, 83, 0, 0, 0, 11, 254, 0, 251, 0, 0, 255,
        171, 201, 147, 129, 5, 68, 237, 189] : List Nat).set 0 1) nw0 nm0 db0 = db0 :=
  c7_corrupted_snapshot_load_fails emptyDb 0 0 _ (by rfl) 0 (by decide) 1 (by decide)

/-- C8: in every keyspace state reachable from the empty keyspace through
`set`, `purge`, and snapshot-load (with `get`/`keys` not mutating), every key
of the expiry map is also a key of the value map. -/
theorem c8_expiry_subset_invariant (db : Db) (h : Reachable db) : expSubsetKv db := by
  induction h with
  | empty => intro q hq; simp [emptyDb, alLookup] at hq
  | set key value ex px nx xx now _ ih =>
    exact expSubsetKv_dbSet key value ex px nx xx now _ ih
  | purge now _ ih => exact expSubsetKv_dbPurge now _ ih
  | load rdb nw nm _ _ =>
    exact expSubsetKv_foldLoad nw nm rdb.data emptyDb
      (fun q hq => by simp [emptyDb, alLookup] at hq)

/-- Witness for C8: the empty keyspace is reachable and satisfies the
invariant. -/
theorem c8_expiry_subset_invariant_witness : Reachable emptyDb ∧ expSubsetKv emptyDb :=
  ⟨Reachable.empty, c8_expiry_subset_invariant emptyDb Reachable.empty⟩

/-- C9: the claim restates the spec's LZF control-byte rules, under which an
extended back-reference (high bits 7) has length `7 + ext` and copies
`7 + ext + 2` bytes. The source computes `7 + ext` into an unused variable
named `_offset` and keeps `len = 7`, copying only 9 bytes: on the input
`[0x00, 'a', 0xE0, 0x01, 0x00, 0x00, 'a']` the code yields 11 copies of 'a'
while the spec's rules (modelled by `lzfSpecDecompress`) yield 12. -/
theorem c9_lzf_extended_length_mismatch :
    lzfDecompressFallback [0, 97, 224, 1, 0, 0, 97] 12 = .ok (List.replicate 11 97) ∧
    lzfSpecDecompress [0, 97, 224, 1, 0, 0, 97] = .ok (List.replicate 12 97) :=
  ⟨rfl, rfl⟩

/-- C10: the claim says parse() always returns normally and never panics. It
fails: `parse_line` calls `String::from_utf8(..).unwrap()`, which panics on
the non-UTF-8 byte 0xFF before a CRLF (input `"+\xFF\r\n"`), and
`parse_verbatim_string` calls `.next().unwrap()` on a header without a space
separator (input `"=txt\r\n"`), which also panics. -/
theorem c10_parser_panics :
    frameParse [43, 255, 13, 10] = .panicked ∧
    frameParse (strBytes "=txt\r\n") = .panicked :=
  ⟨rfl, rfl⟩
